import Mathlib

/-!
Verification development for the SaveFlow transactional reactive store.

The development shallowly embeds the three core components of the
`safeflow-reactive` package (`reactive/subject.ts`, `transaction/transaction-manager.ts`,
`store/transactional-store.ts`) together with the framework-level transaction manager
(`src/core`-side `TransactionManager` with `currentTransaction`/`transactionStack`).

Modelling conventions:
- JavaScript synchronous control flow becomes explicit state passing; every
  operation returns the updated component state.
- Observer callbacks are identified by numeric ids; an invocation of a callback
  is recorded as an event in a trace (an exception thrown by a callback is
  caught and logged by the source, so the invocation itself is what matters).
- `uuid` identifiers and `Date.now()` timestamps are modelled by monotone
  counters (`nextId`, `now`).
- The `setTimeout` watchdog and the retry-delay timer are asynchronous and are
  outside this synchronous model; attempt counting and state transitions are
  modelled exactly as in the source.
- Store state objects are flat records of integer-valued fields, written as
  association lists; the object spread used by the source is `mergeObj`.
- Reference-level aliasing of `getState` is modelled separately in `HeapModel`
  with an explicit heap, because the spread copy is shallow.
-/

deriving instance DecidableEq for Except

namespace SafeFlow

/-- TransactionStatus (types.ts): PENDING, COMMITTED, ROLLED_BACK. -/
inductive TxStatus where
  | pending
  | committed
  | rolledBack
deriving DecidableEq, Repr

namespace Reactive

/-- A store state object: a flat record of integer-valued fields. -/
abbrev StObj := List (String × Int)

/-- Field lookup on a state object. -/
def objGet (o : StObj) (k : String) : Option Int :=
  (o.find? (fun p => p.1 == k)).map (fun p => p.2)

/-- Shallow merge of two state objects, the object spread used by `setState`:
keys of `upd` override `base`; keys new in `upd` are appended in order. -/
def mergeObj (base upd : StObj) : StObj :=
  base.map (fun p =>
    match objGet upd p.1 with
    | some v => (p.1, v)
    | none => p)
  ++ upd.filter (fun p => (objGet base p.1).isNone)

/-- An observer-callback invocation (subject.ts): which callback of which
observer is invoked, and with which value. -/
inductive SubjEvent (T : Type) where
  | next (v : T)
  | err
  | complete
deriving DecidableEq, Repr

/-- The observer invocations performed during one operation, in order. -/
abbrev Trace (T : Type) := List (Nat × SubjEvent T)

/-- SafeFlowSubject (subject.ts 38-199): observer list in registration order,
one-shot closed flag, last value replay data. -/
structure SafeFlowSubject (T : Type) where
  observers : List Nat
  isClosed : Bool
  lastValue : Option T
  hasValue : Bool
deriving DecidableEq, Repr

/-- A freshly constructed subject. -/
def freshSubject (T : Type) : SafeFlowSubject T :=
  ⟨[], false, none, false⟩

/-- subscribe (subject.ts 51-97): append the observer, replay the last value when
one is held (the source checks `_hasValue && lastValue !== undefined`), then send
`complete` when the subject is already closed.  The returned subscription is not
needed by any claim and is not modelled. -/
def SafeFlowSubject.subscribe {T : Type} (s : SafeFlowSubject T) (obs : Nat) :
    SafeFlowSubject T × Trace T :=
  let s1 := { s with observers := s.observers ++ [obs] }
  let replay : Trace T :=
    match s.hasValue, s.lastValue with
    | true, some v => [(obs, SubjEvent.next v)]
    | _, _ => []
  let terminal : Trace T := if s.isClosed then [(obs, SubjEvent.complete)] else []
  (s1, replay ++ terminal)

/-- next (subject.ts 103-119): no-op when closed, otherwise record the value and
invoke every observer in registration order. -/
def SafeFlowSubject.next {T : Type} (s : SafeFlowSubject T) (v : T) :
    SafeFlowSubject T × Trace T :=
  if s.isClosed then (s, [])
  else ({ s with lastValue := some v, hasValue := true },
        s.observers.map (fun o => (o, SubjEvent.next v)))

/-- error (subject.ts 125-143): no-op when closed, otherwise close, notify every
observer, and clear the observer list. -/
def SafeFlowSubject.error {T : Type} (s : SafeFlowSubject T) :
    SafeFlowSubject T × Trace T :=
  if s.isClosed then (s, [])
  else ({ s with isClosed := true, observers := [] },
        s.observers.map (fun o => (o, SubjEvent.err)))

/-- complete (subject.ts 148-166): no-op when closed, otherwise close, notify
every observer, and clear the observer list. -/
def SafeFlowSubject.complete {T : Type} (s : SafeFlowSubject T) :
    SafeFlowSubject T × Trace T :=
  if s.isClosed then (s, [])
  else ({ s with isClosed := true, observers := [] },
        s.observers.map (fun o => (o, SubjEvent.complete)))

/-- getObserverCount (subject.ts 196-198). -/
def SafeFlowSubject.getObserverCount {T : Type} (s : SafeFlowSubject T) : Nat :=
  s.observers.length

/-- TransactionOptions (types.ts): every field optional; `none` is an absent
(undefined) field.  The isolation level enum is modelled by its index. -/
structure TransactionOptions where
  timeout : Option Nat
  autoRetry : Option Bool
  maxRetries : Option Nat
  retryDelay : Option Nat
  optimisticLocking : Option Bool
  isolationLevel : Option Nat
deriving DecidableEq, Repr

/-- An empty options object (no field present). -/
def emptyOptions : TransactionOptions :=
  ⟨none, none, none, none, none, none⟩

/-- DEFAULT_TRANSACTION_OPTIONS (transaction-manager.ts 18-25); READ_COMMITTED
is index 1 of the isolation enum. -/
def DEFAULT_TRANSACTION_OPTIONS : TransactionOptions :=
  ⟨some 30000, some false, some 3, some 1000, some false, some 1⟩

/-- Prefer the first option when present. -/
def orDefault {α : Type} (a b : Option α) : Option α :=
  match a with
  | some x => some x
  | none => b

/-- The spread merge of explicit options over the defaults
(transaction-manager.ts 40). -/
def mergeOptions (o : TransactionOptions) : TransactionOptions :=
  ⟨orDefault o.timeout DEFAULT_TRANSACTION_OPTIONS.timeout,
   orDefault o.autoRetry DEFAULT_TRANSACTION_OPTIONS.autoRetry,
   orDefault o.maxRetries DEFAULT_TRANSACTION_OPTIONS.maxRetries,
   orDefault o.retryDelay DEFAULT_TRANSACTION_OPTIONS.retryDelay,
   orDefault o.optimisticLocking DEFAULT_TRANSACTION_OPTIONS.optimisticLocking,
   orDefault o.isolationLevel DEFAULT_TRANSACTION_OPTIONS.isolationLevel⟩

/-- The two commit/rollback failures of the manager
(transaction-manager.ts 78, 84). -/
inductive TxError where
  | notFound (id : Nat)
  | invalidState (id : Nat)
deriving DecidableEq, Repr

/-- The metadata record of one transaction context
(TransactionMetadata in types.ts). -/
structure TxRecord where
  status : TxStatus
  startTime : Nat
  endTime : Option Nat
  options : TransactionOptions
deriving DecidableEq, Repr

/-- TransactionContext: the id of the metadata record plus the attached data.
The only key the store ever writes into `data` is `snapshot`, so `data` is the
optional snapshot; the manager itself never reads `data`. -/
structure TransactionContext where
  id : Nat
  snapshot : Option StObj
deriving DecidableEq, Repr

/-- TransactionManager (transaction-manager.ts 30-233).  The JS
`Map<string, TransactionContext>` of active transactions is represented by the
insertion-ordered key list `activeIds` together with `records`, which holds the
metadata of every context ever created (the caller retains the context object
after it is deleted from the map, so its record is kept). -/
structure TransactionManager where
  activeIds : List Nat
  records : List (Nat × TxRecord)
  nextId : Nat
  now : Nat
deriving DecidableEq, Repr

/-- A freshly constructed manager. -/
def freshManager : TransactionManager :=
  ⟨[], [], 0, 0⟩

/-- The metadata record a given context id currently denotes. -/
def findRecord (m : TransactionManager) (id : Nat) : Option TxRecord :=
  (m.records.find? (fun p => p.1 == id)).map (fun p => p.2)

/-- In-place update of the metadata record of one id. -/
def setRecord (rs : List (Nat × TxRecord)) (id : Nat) (r : TxRecord) :
    List (Nat × TxRecord) :=
  rs.map (fun p => if p.1 == id then (id, r) else p)

/-- beginTransaction (transaction-manager.ts 39-68): merge options over the
defaults, create a fresh PENDING context, register it in the active set.  The
timeout watchdog scheduled at line 57 is an asynchronous timer and is outside
this synchronous model. -/
def TransactionManager.beginTransaction (m : TransactionManager)
    (options : TransactionOptions) : TransactionManager × TransactionContext :=
  let merged := mergeOptions options
  let id := m.nextId
  let rec0 : TxRecord := ⟨TxStatus.pending, m.now, none, merged⟩
  (⟨m.activeIds ++ [id], m.records ++ [(id, rec0)], id + 1, m.now + 1⟩,
   ⟨id, none⟩)

/-- commitTransaction (transaction-manager.ts 74-93): id must be in the active
set and PENDING; then status becomes COMMITTED, endTime is set, and the id is
removed from the active set.  (In the source the record lookup cannot fail once
`has(id)` holds; the defensive `none` branch mirrors that impossibility.) -/
def TransactionManager.commitTransaction (m : TransactionManager) (id : Nat) :
    Except TxError TransactionManager :=
  if id ∈ m.activeIds then
    match findRecord m id with
    | some r =>
      if r.status = TxStatus.pending then
        Except.ok ⟨m.activeIds.erase id,
          setRecord m.records id
            { r with status := TxStatus.committed, endTime := some m.now },
          m.nextId, m.now + 1⟩
      else Except.error (TxError.invalidState id)
    | none => Except.error (TxError.notFound id)
  else Except.error (TxError.notFound id)

/-- rollbackTransaction (transaction-manager.ts 99-118): same preconditions as
commit; status becomes ROLLED_BACK. -/
def TransactionManager.rollbackTransaction (m : TransactionManager) (id : Nat) :
    Except TxError TransactionManager :=
  if id ∈ m.activeIds then
    match findRecord m id with
    | some r =>
      if r.status = TxStatus.pending then
        Except.ok ⟨m.activeIds.erase id,
          setRecord m.records id
            { r with status := TxStatus.rolledBack, endTime := some m.now },
          m.nextId, m.now + 1⟩
      else Except.error (TxError.invalidState id)
    | none => Except.error (TxError.notFound id)
  else Except.error (TxError.notFound id)

/-- isTransactionActive (transaction-manager.ts 224-226). -/
def TransactionManager.isTransactionActive (m : TransactionManager) (id : Nat) :
    Bool :=
  m.activeIds.contains id

/-- An error escaping a transaction run: either the error thrown by the body or
a commit/rollback error thrown by the manager itself inside the try block. -/
inductive RunErr (E : Type) where
  | body (e : E)
  | tx (t : TxError)
deriving DecidableEq, Repr

/-- One begin / body / commit attempt, shared by executeTransaction and
retryTransaction.  The body is modelled as a function of the attempt index
(`k` counts how many times the body has already been invoked), so that attempt
counting is by construction.  Returns the manager state, the id of the context
this attempt created, and the outcome; a commit error is the error caught by
the surrounding catch block, with the state the commit left behind (the
manager mutates nothing when commit throws). -/
def runAttempt {E R : Type} (fn : Nat → Except E R) (options : TransactionOptions)
    (m : TransactionManager) (k : Nat) :
    TransactionManager × Nat × Except (RunErr E) R :=
  let bc := m.beginTransaction options
  match fn k with
  | Except.ok r =>
    match bc.1.commitTransaction bc.2.id with
    | Except.ok m2 => (m2, bc.2.id, Except.ok r)
    | Except.error te => (bc.1, bc.2.id, Except.error (RunErr.tx te))
  | Except.error e => (bc.1, bc.2.id, Except.error (RunErr.body e))

/-- retryTransaction (transaction-manager.ts 155-182).  Returns the manager
state, the total number of body invocations so far, and the outcome.  Mirrors
the source exactly: the failed attempt is NOT rolled back in the catch branch,
and the recursion continues only when `retriesLeft > 1` and the raw
`options.retryDelay` is truthy (present and non-zero); the retry-delay timer
itself is not modelled. -/
def TransactionManager.retryTransaction {E R : Type} (fn : Nat → Except E R)
    (options : TransactionOptions) :
    Nat → TransactionManager → Nat → TransactionManager × Nat × Except (RunErr E) R
  | 0, m, k =>
    let a := runAttempt fn options m k
    (a.1, k + 1, a.2.2)
  | 1, m, k =>
    let a := runAttempt fn options m k
    (a.1, k + 1, a.2.2)
  | r + 2, m, k =>
    let a := runAttempt fn options m k
    match a.2.2 with
    | Except.ok v => (a.1, k + 1, Except.ok v)
    | Except.error err =>
      match options.retryDelay with
      | some d =>
        if 0 < d then TransactionManager.retryTransaction fn options (r + 1) a.1 (k + 1)
        else (a.1, k + 1, Except.error err)
      | none => (a.1, k + 1, Except.error err)

/-- executeTransaction (transaction-manager.ts 126-146): begin, run the body,
commit; on any caught failure roll back first, then retry exactly when the RAW
(unmerged) options have a truthy `autoRetry` and a truthy `maxRetries`
(`options.autoRetry && options.maxRetries && options.maxRetries > 0`);
otherwise the caught error propagates.  When the rollback inside the catch
itself throws, that error propagates (nothing catches it).  Returns the manager
state, the total number of body invocations, and the outcome. -/
def TransactionManager.executeTransaction {E R : Type} (m : TransactionManager)
    (fn : Nat → Except E R) (options : TransactionOptions) :
    TransactionManager × Nat × Except (RunErr E) R :=
  match runAttempt fn options m 0 with
  | (m1, _, Except.ok r) => (m1, 1, Except.ok r)
  | (m1, id, Except.error err) =>
    match m1.rollbackTransaction id with
    | Except.error te => (m1, 1, Except.error (RunErr.tx te))
    | Except.ok m2 =>
      if options.autoRetry = some true ∧ 0 < options.maxRetries.getD 0 then
        TransactionManager.retryTransaction fn options (options.maxRetries.getD 0) m2 1
      else (m2, 1, Except.error err)

/-- Well-formedness of a manager state: every id ever issued is below the fresh
counter.  Holds for `freshManager` and is preserved by every operation; it
guarantees a freshly begun id collides with no existing record or active id. -/
def MgrWF (m : TransactionManager) : Prop :=
  (∀ p ∈ m.records, p.1 < m.nextId) ∧ (∀ i ∈ m.activeIds, i < m.nextId)

instance (m : TransactionManager) : Decidable (MgrWF m) :=
  inferInstanceAs
    (Decidable ((∀ p ∈ m.records, p.1 < m.nextId) ∧ (∀ i ∈ m.activeIds, i < m.nextId)))

/-- SafeFlowStore (transactional-store.ts 99-271): current state, immutable
initial snapshot, a subject, and a manager. -/
structure SafeFlowStore where
  state : StObj
  initialState : StObj
  subject : SafeFlowSubject StObj
  transactionManager : TransactionManager
deriving DecidableEq, Repr

/-- The store constructor (transactional-store.ts 110-115) with a fresh default
manager. -/
def mkStore (init : StObj) : SafeFlowStore :=
  ⟨init, init, freshSubject StObj, freshManager⟩

/-- getState (transactional-store.ts 121-123).  At value level the spread copy
is the value itself; the reference-level (shallow-copy) behaviour is modelled
in `HeapModel`. -/
def SafeFlowStore.getState (s : SafeFlowStore) : StObj :=
  s.state

/-- setState (transactional-store.ts 129-132): shallow-merge the partial into
the state, then publish the new state through the subject — unconditionally,
whether or not any transaction is open. -/
def SafeFlowStore.setState (s : SafeFlowStore) (p : StObj) :
    SafeFlowStore × Trace StObj :=
  let st1 := mergeObj s.state p
  let nt := s.subject.next st1
  ({ s with state := st1, subject := nt.1 }, nt.2)

/-- subscribe (transactional-store.ts 149-155): delegates to the subject. -/
def SafeFlowStore.subscribe (s : SafeFlowStore) (obs : Nat) :
    SafeFlowStore × Trace StObj :=
  let r := s.subject.subscribe obs
  ({ s with subject := r.1 }, r.2)

/-- beginTransaction (transactional-store.ts 162-171): delegate to the manager,
then write the snapshot of the current state into the context data. -/
def SafeFlowStore.beginTransaction (s : SafeFlowStore)
    (options : TransactionOptions) : SafeFlowStore × TransactionContext :=
  let bc := s.transactionManager.beginTransaction options
  ({ s with transactionManager := bc.1 }, { bc.2 with snapshot := some s.state })

/-- commitTransaction (transactional-store.ts 177-182): delegate to the
manager, then publish the current state.  When the manager throws, the error
propagates before any publish. -/
def SafeFlowStore.commitTransaction (s : SafeFlowStore) (ctx : TransactionContext) :
    SafeFlowStore × Trace StObj × Option TxError :=
  match s.transactionManager.commitTransaction ctx.id with
  | Except.error te => (s, [], some te)
  | Except.ok m2 =>
    let s2 : SafeFlowStore := { s with transactionManager := m2 }
    let nt := s2.subject.next s2.getState
    ({ s2 with subject := nt.1 }, nt.2, none)

/-- rollbackTransaction (transactional-store.ts 188-198): restore the state
from the context snapshot when one is attached (source order: before the
manager call), then delegate to the manager, then publish the current state.
When the manager throws, the restore has already happened but nothing is
published. -/
def SafeFlowStore.rollbackTransaction (s : SafeFlowStore) (ctx : TransactionContext) :
    SafeFlowStore × Trace StObj × Option TxError :=
  let st1 := match ctx.snapshot with
    | some snap => snap
    | none => s.state
  match s.transactionManager.rollbackTransaction ctx.id with
  | Except.error te => ({ s with state := st1 }, [], some te)
  | Except.ok m2 =>
    let s2 : SafeFlowStore := { s with state := st1, transactionManager := m2 }
    let nt := s2.subject.next s2.getState
    ({ s2 with subject := nt.1 }, nt.2, none)

/-- A sequence of setState calls, discarding the traces. -/
def applySetStates (s : SafeFlowStore) (ps : List StObj) : SafeFlowStore :=
  ps.foldl (fun acc p => (acc.setState p).1) s

/-- A body that throws on every invocation (the thrown error records the
attempt index). -/
def alwaysFail : Nat → Except Nat Nat :=
  fun k => Except.error k

/-- A body that throws on its first two invocations and then succeeds. -/
def failTwiceThenSucceed : Nat → Except Nat Nat :=
  fun k => if k < 2 then Except.error k else Except.ok 42

end Reactive

namespace Framework

/-- TransactionContext of the framework core (core/types.ts): id, status and
timing carried directly on the context. -/
structure TransactionContext where
  id : Nat
  status : TxStatus
  startTime : Nat
  endTime : Option Nat
deriving DecidableEq, Repr

/-- The framework-level TransactionManager: a current transaction pointer and
a stack of enclosing transactions.  The JS array used as the stack grows and
shrinks at its end; the list here keeps the top at the head. -/
structure TransactionManager where
  currentTransaction : Option TransactionContext
  transactionStack : List TransactionContext
  nextId : Nat
  now : Nat
deriving DecidableEq, Repr

/-- A freshly constructed framework manager. -/
def freshManager : TransactionManager :=
  ⟨none, [], 0, 0⟩

/-- beginTransaction (framework manager): push the current transaction, when
there is one, onto the stack, and make a fresh PENDING context current.  (In
the source this is private and reached through executeWithinTransaction; the
state transition is the same.) -/
def TransactionManager.beginTransaction (m : TransactionManager) :
    TransactionManager × TransactionContext :=
  let stack1 := match m.currentTransaction with
    | some c => c :: m.transactionStack
    | none => m.transactionStack
  let ctx : TransactionContext := ⟨m.nextId, TxStatus.pending, m.now, none⟩
  ({ currentTransaction := some ctx, transactionStack := stack1,
     nextId := m.nextId + 1, now := m.now + 1 }, ctx)

/-- commit (framework manager): fails when no transaction is current; otherwise
the current context becomes COMMITTED (the terminated context is returned, as
the caller retains the mutated object) and the top of the stack — the enclosing
transaction, when any — is popped back in as current. -/
def TransactionManager.commit (m : TransactionManager) :
    Except String (TransactionManager × TransactionContext) :=
  match m.currentTransaction with
  | none => Except.error "No active transaction to commit"
  | some c =>
    Except.ok ({ currentTransaction := m.transactionStack.head?,
                 transactionStack := m.transactionStack.tail,
                 nextId := m.nextId, now := m.now + 1 },
               { c with status := TxStatus.committed, endTime := some m.now })

/-- rollback (framework manager): as commit, with status ROLLED_BACK. -/
def TransactionManager.rollback (m : TransactionManager) :
    Except String (TransactionManager × TransactionContext) :=
  match m.currentTransaction with
  | none => Except.error "No active transaction to roll back"
  | some c =>
    Except.ok ({ currentTransaction := m.transactionStack.head?,
                 transactionStack := m.transactionStack.tail,
                 nextId := m.nextId, now := m.now + 1 },
               { c with status := TxStatus.rolledBack, endTime := some m.now })

end Framework

namespace HeapModel

/-- A JavaScript value as stored in an object field: a primitive or a reference
to another object. -/
inductive JVal where
  | prim (n : Int)
  | ref (a : Nat)
deriving DecidableEq, Repr

/-- An object: its named fields. -/
abbrev Obj := List (String × JVal)

/-- A heap: allocated addresses and their objects. -/
abbrev Heap := List (Nat × Obj)

/-- The fields of the object at an address. -/
def lookupObj (h : Heap) (a : Nat) : Option Obj :=
  (h.find? (fun p => p.1 == a)).map (fun p => p.2)

/-- Read one field of an object. -/
def getField (o : Obj) (k : String) : Option JVal :=
  (o.find? (fun p => p.1 == k)).map (fun p => p.2)

/-- Assign one field of an object. -/
def setField (o : Obj) (k : String) (v : JVal) : Obj :=
  if (getField o k).isSome then
    o.map (fun p => if p.1 == k then (k, v) else p)
  else o ++ [(k, v)]

/-- A field assignment `objAt(a).k = v` on the heap. -/
def setHeapField (h : Heap) (a : Nat) (k : String) (v : JVal) : Heap :=
  h.map (fun p => if p.1 == a then (a, setField p.2 k v) else p)

/-- An address not yet allocated. -/
def freshAddr (h : Heap) : Nat :=
  (h.map (fun p => p.1)).foldr Nat.max 0 + 1

/-- Follow a field path from an address: the value reached, when every step
dereferences an allocated object and an existing field. -/
def readPath (h : Heap) : Nat → List String → Option JVal
  | _, [] => none
  | a, k :: ks =>
    match lookupObj h a with
    | none => none
    | some o =>
      match getField o k with
      | none => none
      | some v =>
        match ks with
        | [] => some v
        | _ :: _ =>
          match v with
          | JVal.ref b => readPath h b ks
          | JVal.prim _ => none

/-- getState (transactional-store.ts 121-123) at reference level: the spread
copy allocates a fresh top-level object whose field list — including references
to nested objects — is shared with the state object. -/
def getStateHeap (h : Heap) (stateAddr : Nat) : Heap × Nat :=
  let c := freshAddr h
  match lookupObj h stateAddr with
  | some o => (h ++ [(c, o)], c)
  | none => (h ++ [(c, [])], c)

/-- A field value refers only to allocated addresses. -/
def refOk (h : Heap) (v : JVal) : Prop :=
  match v with
  | JVal.ref b => b ∈ h.map (fun r => r.1)
  | JVal.prim _ => True

instance (h : Heap) : (v : JVal) → Decidable (refOk h v)
  | JVal.ref b => inferInstanceAs (Decidable (b ∈ h.map (fun (r : Nat × Obj) => r.1)))
  | JVal.prim _ => inferInstanceAs (Decidable True)

/-- Heap well-formedness: every reference stored in any object points to an
allocated address. -/
def HeapWF (h : Heap) : Prop :=
  ∀ p ∈ h, ∀ q ∈ p.2, refOk h q.2

instance (h : Heap) : Decidable (HeapWF h) :=
  inferInstanceAs (Decidable (∀ p ∈ h, ∀ q ∈ p.2, refOk h q.2))

end HeapModel

end SafeFlow

/-! ## Helper lemmas -/

namespace SafeFlow

open Reactive

/-- Mapping a function that fixes every element of a list is the identity. -/
theorem map_id_of {α : Type} (l : List α) (f : α → α) (h : ∀ a ∈ l, f a = a) :
    l.map f = l := by
  induction l with
  | nil => rfl
  | cons a l ih =>
    simp only [List.map_cons]
    rw [h a (List.mem_cons_self a l), ih (fun b hb => h b (List.mem_cons_of_mem a hb))]

/-- Finding a freshly appended key. -/
theorem find_append_fresh {β : Type} (rs : List (Nat × β)) (id : Nat) (r : β)
    (h : ∀ p ∈ rs, p.1 ≠ id) :
    (rs ++ [(id, r)]).find? (fun p => p.1 == id) = some (id, r) := by
  induction rs with
  | nil => simp
  | cons p rs ih =>
    have hp : (p.1 == id) = false := by
      simp only [beq_eq_false_iff_ne, ne_eq]
      exact h p (List.mem_cons_self p rs)
    simp only [List.cons_append, List.find?_cons, hp]
    exact ih (fun q hq => h q (List.mem_cons_of_mem p hq))

/-- Finding a key that is fresh for a prefix list, with further entries behind
it: the search stops at the first entry carrying the key. -/
theorem find_append_fresh_mid {β : Type} (rs : List (Nat × β)) (id : Nat) (r : β)
    (rest : List (Nat × β)) (h : ∀ p ∈ rs, p.1 ≠ id) :
    ((rs ++ [(id, r)]) ++ rest).find? (fun p => p.1 == id) = some (id, r) := by
  induction rs with
  | nil => simp [List.find?_cons]
  | cons p rs ih =>
    have hp : (p.1 == id) = false := by
      simp only [beq_eq_false_iff_ne, ne_eq]
      exact h p (List.mem_cons_self p rs)
    simp only [List.cons_append, List.find?_cons, hp]
    exact ih (fun q hq => h q (List.mem_cons_of_mem p hq))

/-- Updating a freshly appended record touches nothing else. -/
theorem setRecord_append_fresh (rs : List (Nat × TxRecord)) (id : Nat)
    (r r' : TxRecord) (h : ∀ p ∈ rs, p.1 ≠ id) :
    setRecord (rs ++ [(id, r)]) id r' = rs ++ [(id, r')] := by
  unfold setRecord
  rw [List.map_append]
  congr 1
  · exact map_id_of rs _ (fun p hp => by
      have : (p.1 == id) = false := by
        simp only [beq_eq_false_iff_ne, ne_eq]
        exact h p hp
      simp [this])
  · simp

/-- Erasing a freshly appended element. -/
theorem erase_append_fresh (l : List Nat) (id : Nat) (h : id ∉ l) :
    (l ++ [id]).erase id = l := by
  rw [List.erase_append_right _ h]
  simp

/-- beginTransaction preserves manager well-formedness. -/
theorem wf_begin (m : TransactionManager) (o : TransactionOptions) (hwf : MgrWF m) :
    MgrWF (m.beginTransaction o).1 := by
  unfold TransactionManager.beginTransaction MgrWF
  constructor
  · intro p hp
    rcases List.mem_append.mp hp with h1 | h1
    · exact Nat.lt_succ_of_lt (hwf.1 p h1)
    · simp only [List.mem_singleton] at h1
      subst h1
      exact Nat.lt_succ_self _
  · intro i hi
    rcases List.mem_append.mp hi with h1 | h1
    · exact Nat.lt_succ_of_lt (hwf.2 i h1)
    · simp only [List.mem_singleton] at h1
      subst h1
      exact Nat.lt_succ_self _

/-- The state left behind by a terminal transition on a freshly begun
transaction is well-formed. -/
theorem wf_terminal (m : TransactionManager) (r : TxRecord) (t : Nat) (hwf : MgrWF m) :
    MgrWF ⟨m.activeIds, m.records ++ [(m.nextId, r)], m.nextId + 1, t⟩ := by
  constructor
  · intro p hp
    rcases List.mem_append.mp hp with h1 | h1
    · exact Nat.lt_succ_of_lt (hwf.1 p h1)
    · simp only [List.mem_singleton] at h1
      subst h1
      exact Nat.lt_succ_self _
  · intro i hi
    exact Nat.lt_succ_of_lt (hwf.2 i hi)

/-- Rolling back a freshly begun transaction succeeds, restores the active set,
and records the terminal status. -/
theorem rollback_after_begin (m : TransactionManager) (o : TransactionOptions)
    (hwf : MgrWF m) :
    (m.beginTransaction o).1.rollbackTransaction (m.beginTransaction o).2.id =
      Except.ok ⟨m.activeIds,
        m.records ++ [(m.nextId,
          ⟨TxStatus.rolledBack, m.now, some (m.now + 1), mergeOptions o⟩)],
        m.nextId + 1, m.now + 2⟩ := by
  have hks : ∀ p ∈ m.records, p.1 ≠ m.nextId := fun p hp => Nat.ne_of_lt (hwf.1 p hp)
  have hna : m.nextId ∉ m.activeIds := fun hmem => absurd (hwf.2 _ hmem) (lt_irrefl _)
  simp [TransactionManager.beginTransaction, TransactionManager.rollbackTransaction,
    findRecord,
    find_append_fresh m.records m.nextId ⟨TxStatus.pending, m.now, none, mergeOptions o⟩ hks,
    setRecord_append_fresh m.records m.nextId
      ⟨TxStatus.pending, m.now, none, mergeOptions o⟩
      ⟨TxStatus.rolledBack, m.now, some (m.now + 1), mergeOptions o⟩ hks,
    erase_append_fresh m.activeIds m.nextId hna]

/-- Committing a freshly begun transaction succeeds, restores the active set,
and records the terminal status. -/
theorem commit_after_begin (m : TransactionManager) (o : TransactionOptions)
    (hwf : MgrWF m) :
    (m.beginTransaction o).1.commitTransaction (m.beginTransaction o).2.id =
      Except.ok ⟨m.activeIds,
        m.records ++ [(m.nextId,
          ⟨TxStatus.committed, m.now, some (m.now + 1), mergeOptions o⟩)],
        m.nextId + 1, m.now + 2⟩ := by
  have hks : ∀ p ∈ m.records, p.1 ≠ m.nextId := fun p hp => Nat.ne_of_lt (hwf.1 p hp)
  have hna : m.nextId ∉ m.activeIds := fun hmem => absurd (hwf.2 _ hmem) (lt_irrefl _)
  simp [TransactionManager.beginTransaction, TransactionManager.commitTransaction,
    findRecord,
    find_append_fresh m.records m.nextId ⟨TxStatus.pending, m.now, none, mergeOptions o⟩ hks,
    setRecord_append_fresh m.records m.nextId
      ⟨TxStatus.pending, m.now, none, mergeOptions o⟩
      ⟨TxStatus.committed, m.now, some (m.now + 1), mergeOptions o⟩ hks,
    erase_append_fresh m.activeIds m.nextId hna]

/-- Variant of `rollback_after_begin` phrased with the begun id written as the
fresh counter value (the two are definitionally the same). -/
theorem rollback_after_begin_nextId (m : TransactionManager) (o : TransactionOptions)
    (hwf : MgrWF m) :
    (m.beginTransaction o).1.rollbackTransaction m.nextId =
      Except.ok ⟨m.activeIds,
        m.records ++ [(m.nextId,
          ⟨TxStatus.rolledBack, m.now, some (m.now + 1), mergeOptions o⟩)],
        m.nextId + 1, m.now + 2⟩ :=
  rollback_after_begin m o hwf

/-- An attempt whose body throws performs no commit: it returns the post-begin
state, the begun id, and the body error. -/
theorem runAttempt_error {E R : Type} (fn : Nat → Except E R)
    (o : TransactionOptions) (m : TransactionManager) (k : Nat) (e : E)
    (h : fn k = Except.error e) :
    runAttempt fn o m k =
      ((m.beginTransaction o).1, (m.beginTransaction o).2.id,
       Except.error (RunErr.body e)) := by
  unfold runAttempt
  rw [h]

/-- The retry procedure performs at least one further body invocation. -/
theorem retry_count_ge {E R : Type} (fn : Nat → Except E R) (o : TransactionOptions) :
    ∀ (rl : Nat) (m : TransactionManager) (k : Nat),
      k + 1 ≤ (TransactionManager.retryTransaction fn o rl m k).2.1 := by
  intro rl
  induction rl using Nat.strong_induction_on with
  | _ rl ih =>
    match rl with
    | 0 => intro m k; simp [TransactionManager.retryTransaction]
    | 1 => intro m k; simp [TransactionManager.retryTransaction]
    | r + 2 =>
      intro m k
      unfold TransactionManager.retryTransaction
      cases hres : (runAttempt fn o m k).2.2 with
      | ok v => simp [hres]
      | error err =>
        simp only [hres]
        cases hd : o.retryDelay with
        | none => simp
        | some d =>
          simp only
          by_cases h0 : 0 < d
          · rw [if_pos h0]
            calc k + 1 ≤ (k + 1) + 1 := Nat.le_succ _
              _ ≤ _ := ih (r + 1) (by omega) _ (k + 1)
          · rw [if_neg h0]

end SafeFlow

namespace SafeFlow

open Reactive

/-- When an attempt succeeds, the retry procedure returns its result regardless
of the remaining retry budget. -/
theorem retry_ok {E R : Type} (fn : Nat → Except E R) (o : TransactionOptions)
    (m : TransactionManager) (k : Nat) (v : R)
    (h : (runAttempt fn o m k).2.2 = Except.ok v) :
    ∀ rl, TransactionManager.retryTransaction fn o rl m k =
      ((runAttempt fn o m k).1, k + 1, Except.ok v) := by
  intro rl
  match rl with
  | 0 => simp [TransactionManager.retryTransaction, h]
  | 1 => simp [TransactionManager.retryTransaction, h]
  | r + 2 =>
    unfold TransactionManager.retryTransaction
    simp only [h]

/-- A failed attempt with a positive retry delay and at least two retries left
steps the retry procedure into the next attempt. -/
theorem retry_error_step {E R : Type} (fn : Nat → Except E R) (o : TransactionOptions)
    (m : TransactionManager) (k : Nat) (err : RunErr E) (r d : Nat)
    (h : (runAttempt fn o m k).2.2 = Except.error err)
    (hd : o.retryDelay = some d) (h0 : 0 < d) :
    TransactionManager.retryTransaction fn o (r + 2) m k =
      TransactionManager.retryTransaction fn o (r + 1) (runAttempt fn o m k).1 (k + 1) := by
  conv_lhs => unfold TransactionManager.retryTransaction
  simp only [h, hd, if_pos h0]

/-- Under a positive retry delay, a body that always throws drives the retry
procedure through its entire budget: with `rl + 1` retries left, `rl + 1`
further attempts happen and the error of the last one propagates. -/
theorem retry_alwaysFail (o : TransactionOptions) (d : Nat)
    (hd : o.retryDelay = some d) (h0 : 0 < d) :
    ∀ (rl : Nat) (m : TransactionManager) (k : Nat),
      (TransactionManager.retryTransaction alwaysFail o (rl + 1) m k).2.1 = k + rl + 1 ∧
      (TransactionManager.retryTransaction alwaysFail o (rl + 1) m k).2.2 =
        Except.error (RunErr.body (k + rl)) := by
  intro rl
  induction rl with
  | zero =>
    intro m k
    constructor <;> simp [TransactionManager.retryTransaction, runAttempt, alwaysFail]
  | succ r ih =>
    intro m k
    have herr : (runAttempt alwaysFail o m k).2.2 = Except.error (RunErr.body k) := by
      simp [runAttempt, alwaysFail]
    have e2 : r + 1 + 1 = r + 2 := rfl
    rw [e2, retry_error_step alwaysFail o m k _ r d herr hd h0]
    rcases ih (runAttempt alwaysFail o m k).1 (k + 1) with ⟨h1, h2⟩
    constructor
    · rw [h1]; omega
    · rw [h2]
      have e3 : k + 1 + r = k + (r + 1) := by omega
      rw [e3]

/-- setState on a store with an open subject: the merged state is stored, the
merged state is published to every observer, and the manager, the observer
list, and openness are untouched. -/
theorem setState_open (s : SafeFlowStore) (p : StObj) (h : s.subject.isClosed = false) :
    (s.setState p).1.state = mergeObj s.state p ∧
    (s.setState p).1.subject.observers = s.subject.observers ∧
    (s.setState p).1.subject.isClosed = false ∧
    (s.setState p).1.subject.hasValue = true ∧
    (s.setState p).1.subject.lastValue = some (mergeObj s.state p) ∧
    (s.setState p).1.transactionManager = s.transactionManager ∧
    (s.setState p).2 =
      s.subject.observers.map (fun ob => (ob, SubjEvent.next (mergeObj s.state p))) := by
  refine ⟨?_, ?_, ?_, ?_, ?_, ?_, ?_⟩ <;>
    simp [SafeFlowStore.setState, SafeFlowSubject.next, h]

/-- Unfolding one setState out of a sequence. -/
theorem applySetStates_cons (s : SafeFlowStore) (p : StObj) (ps : List StObj) :
    applySetStates s (p :: ps) = applySetStates (s.setState p).1 ps := rfl

/-- A sequence of setState calls never touches the manager, the observer list,
or the openness of the subject. -/
theorem applySetStates_inv (ps : List StObj) :
    ∀ s : SafeFlowStore, s.subject.isClosed = false →
      (applySetStates s ps).transactionManager = s.transactionManager ∧
      (applySetStates s ps).subject.observers = s.subject.observers ∧
      (applySetStates s ps).subject.isClosed = false := by
  induction ps with
  | nil => intro s h; exact ⟨rfl, rfl, h⟩
  | cons p ps ih =>
    intro s h
    rcases setState_open s p h with ⟨_, hobs, hcl, _, _, hmgr, _⟩
    rcases ih (s.setState p).1 hcl with ⟨imgr, iobs, icl⟩
    rw [applySetStates_cons]
    exact ⟨imgr.trans hmgr, iobs.trans hobs, icl⟩

/-- After at least one setState, the subject holds the current state as its
replay value. -/
theorem applySetStates_last (ps : List StObj) :
    ∀ s : SafeFlowStore, s.subject.isClosed = false → ps ≠ [] →
      (applySetStates s ps).subject.hasValue = true ∧
      (applySetStates s ps).subject.lastValue = some (applySetStates s ps).state := by
  induction ps with
  | nil => intro s _ hne; exact absurd rfl hne
  | cons p ps ih =>
    intro s h _
    rcases setState_open s p h with ⟨hst, _, hcl, hhv, hlv, _, _⟩
    rw [applySetStates_cons]
    cases ps with
    | nil => exact ⟨hhv, by rw [show applySetStates (s.setState p).1 [] = (s.setState p).1 from rfl, hlv, hst]⟩
    | cons q qs => exact ih (s.setState p).1 hcl (by simp)

end SafeFlow

/-! ## Claims -/

namespace SafeFlow

open Reactive

/-- Claim C1 (counterexample): in the spec scenario — state count = 2, observer
0 subscribed, a transaction begun and PENDING — the mid-transaction
`setState` with count = 99 DOES invoke the observer with the intermediate
value count = 99 (the rollback afterwards then publishes count = 2 again), so
observers are not notified only at transaction boundaries. -/
theorem c1_counterexample :
    let st := mkStore [("count", (2 : Int))]
    let st1 := (st.subscribe 0).1
    let bc := st1.beginTransaction emptyOptions
    let r := bc.1.setState [("count", 99)]
    let rb := r.1.rollbackTransaction bc.2
    bc.1.transactionManager.activeIds = [bc.2.id] ∧
    r.2 = [(0, SubjEvent.next [("count", (99 : Int))])] ∧
    rb.2.1 = [(0, SubjEvent.next [("count", (2 : Int))])] := by
  decide

/-- Claim C1 (amended): `setState` publishes the merged value to every current
observer immediately and unconditionally — also between `beginTransaction` and
the matching commit or rollback, while the context is PENDING in the active
set — so observers do see mid-transaction intermediate values. -/
theorem c1_amended (s0 : SafeFlowStore) (o : TransactionOptions) (p : StObj)
    (hopen : s0.subject.isClosed = false) :
    (s0.beginTransaction o).2.id ∈
      (s0.beginTransaction o).1.transactionManager.activeIds ∧
    ((s0.beginTransaction o).1.setState p).2 =
      s0.subject.observers.map
        (fun ob => (ob, SubjEvent.next (mergeObj s0.state p))) := by
  constructor
  · simp [SafeFlowStore.beginTransaction, TransactionManager.beginTransaction]
  · simp [SafeFlowStore.beginTransaction, SafeFlowStore.setState,
          SafeFlowSubject.next, hopen]

/-- Claim C1 (amended, witness): the amended statement evaluated on the spec
scenario store. -/
theorem c1_amended_witness :
    let st1 := ((mkStore [("count", (2 : Int))]).subscribe 0).1
    st1.subject.isClosed = false ∧
    ((st1.beginTransaction emptyOptions).2.id ∈
      (st1.beginTransaction emptyOptions).1.transactionManager.activeIds ∧
     ((st1.beginTransaction emptyOptions).1.setState [("count", 99)]).2 =
      st1.subject.observers.map
        (fun ob => (ob, SubjEvent.next (mergeObj st1.state [("count", 99)])))) :=
  ⟨by decide,
   c1_amended (((mkStore [("count", (2 : Int))]).subscribe 0).1) emptyOptions
     [("count", 99)] (by decide)⟩

/-- Claim C2 (code_bug): `executeTransaction` with `autoRetry: true`,
`maxRetries: 1`, `retryDelay: 1000` against an always-throwing body performs
the initial attempt (rolled back) and one retry attempt, then propagates the
retry attempt's error — but the retry attempt's context (id 1) is left PENDING
in the active set: `retryTransaction` has no rollback in its catch branch. -/
theorem c2_retry_attempt_left_pending :
    let opts : TransactionOptions :=
      { emptyOptions with autoRetry := some true, maxRetries := some 1,
                          retryDelay := some 1000 }
    let r := freshManager.executeTransaction alwaysFail opts
    r.2.2 = Except.error (RunErr.body 1) ∧
    r.2.1 = 2 ∧
    r.1.activeIds = [1] ∧
    (findRecord r.1 1).map (fun rc => rc.status) = some TxStatus.pending ∧
    r.1.isTransactionActive 1 = true := by
  decide

/-- Claim C4 (counterexample): with options exactly autoRetry: true (and no
explicit maxRetries), the defaults-merged options would carry maxRetries = 3,
yet `executeTransaction` performs no retry at all — the body runs exactly once
and the original error propagates — because the source tests the RAW options
(`options.maxRetries` is undefined, hence falsy). -/
theorem c4_counterexample :
    let opts : TransactionOptions := { emptyOptions with autoRetry := some true }
    (mergeOptions opts).maxRetries = some 3 ∧
    (freshManager.executeTransaction alwaysFail opts).2.1 = 1 ∧
    (freshManager.executeTransaction alwaysFail opts).2.2 =
      Except.error (RunErr.body 0) := by
  decide

/-- Claim C4 (amended): when the body of `executeTransaction` fails its first
invocation, the retry procedure is entered exactly when the CALLER-SUPPLIED
(unmerged) options have autoRetry set to true and an explicit maxRetries > 0;
the defaults are never consulted for this decision, and otherwise the original
body error propagates unchanged after the single invocation. -/
theorem c4_amended {E R : Type} (m : TransactionManager) (fn : Nat → Except E R)
    (o : TransactionOptions) (e : E)
    (hwf : MgrWF m) (hfail : fn 0 = Except.error e) :
    (2 ≤ (m.executeTransaction fn o).2.1 ↔
      o.autoRetry = some true ∧ 0 < o.maxRetries.getD 0) ∧
    (¬ (o.autoRetry = some true ∧ 0 < o.maxRetries.getD 0) →
      (m.executeTransaction fn o).2 = (1, Except.error (RunErr.body e))) := by
  have hrun := runAttempt_error fn o m 0 e hfail
  unfold TransactionManager.executeTransaction
  simp only [hrun]
  simp only [rollback_after_begin m o hwf]
  by_cases hc : o.autoRetry = some true ∧ 0 < o.maxRetries.getD 0
  · rw [if_pos hc]
    exact ⟨⟨fun _ => hc, fun _ => retry_count_ge fn o _ _ 1⟩,
           fun hnc => absurd hc hnc⟩
  · rw [if_neg hc]
    refine ⟨?_, fun _ => rfl⟩
    simp [hc]

/-- Claim C4 (amended, witness): the amended statement evaluated at the fresh
manager, an always-throwing body, and options autoRetry: true, maxRetries: 2,
retryDelay: 1. -/
theorem c4_amended_witness :
    MgrWF freshManager ∧ alwaysFail 0 = Except.error 0 ∧
    ((2 ≤ (freshManager.executeTransaction alwaysFail
          (⟨none, some true, some 2, some 1, none, none⟩ : TransactionOptions)).2.1 ↔
        (⟨none, some true, some 2, some 1, none, none⟩ : TransactionOptions).autoRetry =
            some true ∧
          0 < (⟨none, some true, some 2, some 1, none, none⟩ :
            TransactionOptions).maxRetries.getD 0) ∧
     (¬ ((⟨none, some true, some 2, some 1, none, none⟩ :
            TransactionOptions).autoRetry = some true ∧
          0 < (⟨none, some true, some 2, some 1, none, none⟩ :
            TransactionOptions).maxRetries.getD 0) →
        (freshManager.executeTransaction alwaysFail
          (⟨none, some true, some 2, some 1, none, none⟩ : TransactionOptions)).2 =
          (1, Except.error (RunErr.body 0)))) :=
  ⟨by decide, rfl,
   c4_amended freshManager alwaysFail ⟨none, some true, some 2, some 1, none, none⟩ 0
     (by decide) rfl⟩

/-- Claim C5 (counterexample): in the safeflow-reactive TransactionManager —
the manager the store composes with — beginning a second transaction (id 1)
while one is PENDING (id 0) merely registers an independent peer in the
id-keyed active map.  Committing the inner context yields the full post-state
shown here: its type consists of nothing but the active-id list, the metadata
records, and the two counters, so there is no stack component the outer was
pushed to and no current-transaction pointer it is restored into.  Moreover,
committing the OUTER context directly while the inner is still open succeeds
and leaves the inner PENDING — the outer was never parked on any stack and the
two contexts terminate in any order, contradicting the claimed push/restore
discipline for this manager. -/
theorem c5_counterexample :
    let b1 := freshManager.beginTransaction emptyOptions
    let b2 := b1.1.beginTransaction emptyOptions
    b2.1.activeIds = [b1.2.id, b2.2.id] ∧
    b2.1.commitTransaction b2.2.id =
      Except.ok ⟨[0],
        [(0, ⟨TxStatus.pending, 0, none, mergeOptions emptyOptions⟩),
         (1, ⟨TxStatus.committed, 1, some 2, mergeOptions emptyOptions⟩)], 2, 3⟩ ∧
    b2.1.commitTransaction b1.2.id =
      Except.ok ⟨[1],
        [(0, ⟨TxStatus.committed, 0, some 2, mergeOptions emptyOptions⟩),
         (1, ⟨TxStatus.pending, 1, none, mergeOptions emptyOptions⟩)], 2, 3⟩ := by
  decide

/-- Claim C5 (amended): in the safeflow-reactive TransactionManager (the
claim's cited code, used by the store), beginTransaction called while an outer
context is PENDING pushes nothing: it only appends the new independent context
to the id-keyed active map — the manager maintains no per-manager stack and no
current-transaction pointer.  Committing or rolling back the inner context
deletes only the inner entry, so the outer context remains PENDING in the
active map: the enclosing transaction's identity is preserved by its map entry
itself, not restored from a stack.  The push/restore-as-current mechanism the
spec describes exists only in the separate framework-level TransactionManager
(currentTransaction / transactionStack), where begin pushes the current
context and commit or rollback pops it back as current. -/
theorem c5_amended (m : TransactionManager) (o o2 : TransactionOptions)
    (hwf : MgrWF m) :
    ((m.beginTransaction o).1.beginTransaction o2).1 =
      ⟨(m.beginTransaction o).1.activeIds ++ [(m.beginTransaction o).1.nextId],
       (m.beginTransaction o).1.records ++
         [((m.beginTransaction o).1.nextId,
           ⟨TxStatus.pending, (m.beginTransaction o).1.now, none, mergeOptions o2⟩)],
       (m.beginTransaction o).1.nextId + 1, (m.beginTransaction o).1.now + 1⟩ ∧
    (findRecord ((m.beginTransaction o).1.beginTransaction o2).1
        (m.beginTransaction o).2.id).map (fun rc => rc.status) =
      some TxStatus.pending ∧
    ((m.beginTransaction o).1.beginTransaction o2).1.commitTransaction
        ((m.beginTransaction o).1.beginTransaction o2).2.id =
      Except.ok ⟨(m.beginTransaction o).1.activeIds,
        (m.beginTransaction o).1.records ++
          [((m.beginTransaction o).1.nextId,
            ⟨TxStatus.committed, (m.beginTransaction o).1.now,
             some ((m.beginTransaction o).1.now + 1), mergeOptions o2⟩)],
        (m.beginTransaction o).1.nextId + 1, (m.beginTransaction o).1.now + 2⟩ ∧
    (∀ M2, ((m.beginTransaction o).1.beginTransaction o2).1.commitTransaction
        ((m.beginTransaction o).1.beginTransaction o2).2.id = Except.ok M2 →
      (m.beginTransaction o).2.id ∈ M2.activeIds ∧
      (findRecord M2 (m.beginTransaction o).2.id).map (fun rc => rc.status) =
        some TxStatus.pending) ∧
    ((m.beginTransaction o).1.beginTransaction o2).1.rollbackTransaction
        ((m.beginTransaction o).1.beginTransaction o2).2.id =
      Except.ok ⟨(m.beginTransaction o).1.activeIds,
        (m.beginTransaction o).1.records ++
          [((m.beginTransaction o).1.nextId,
            ⟨TxStatus.rolledBack, (m.beginTransaction o).1.now,
             some ((m.beginTransaction o).1.now + 1), mergeOptions o2⟩)],
        (m.beginTransaction o).1.nextId + 1, (m.beginTransaction o).1.now + 2⟩ ∧
    (∀ M2, ((m.beginTransaction o).1.beginTransaction o2).1.rollbackTransaction
        ((m.beginTransaction o).1.beginTransaction o2).2.id = Except.ok M2 →
      (m.beginTransaction o).2.id ∈ M2.activeIds ∧
      (findRecord M2 (m.beginTransaction o).2.id).map (fun rc => rc.status) =
        some TxStatus.pending) ∧
    (∀ (fm : Framework.TransactionManager) (outerF : Framework.TransactionContext),
      fm.currentTransaction = some outerF →
        (fm.beginTransaction).1.transactionStack.head? = some outerF ∧
        (∀ fm2 c, (fm.beginTransaction).1.commit = Except.ok (fm2, c) →
          fm2.currentTransaction = some outerF) ∧
        (∀ fm2 c, (fm.beginTransaction).1.rollback = Except.ok (fm2, c) →
          fm2.currentTransaction = some outerF)) := by
  have hwf1 : MgrWF (m.beginTransaction o).1 := wf_begin m o hwf
  have hks : ∀ p ∈ m.records, p.1 ≠ m.nextId := fun p hp => Nat.ne_of_lt (hwf.1 p hp)
  refine ⟨rfl, ?_, commit_after_begin (m.beginTransaction o).1 o2 hwf1, ?_,
          rollback_after_begin (m.beginTransaction o).1 o2 hwf1, ?_, ?_⟩
  · simp only [TransactionManager.beginTransaction, findRecord]
    rw [find_append_fresh_mid m.records m.nextId _ _ hks]
    rfl
  · intro M2 h
    rw [commit_after_begin (m.beginTransaction o).1 o2 hwf1] at h
    injection h with h2
    subst h2
    constructor
    · simp [TransactionManager.beginTransaction]
    · simp only [TransactionManager.beginTransaction, findRecord]
      rw [find_append_fresh_mid m.records m.nextId _ _ hks]
      rfl
  · intro M2 h
    rw [rollback_after_begin (m.beginTransaction o).1 o2 hwf1] at h
    injection h with h2
    subst h2
    constructor
    · simp [TransactionManager.beginTransaction]
    · simp only [TransactionManager.beginTransaction, findRecord]
      rw [find_append_fresh_mid m.records m.nextId _ _ hks]
      rfl
  · intro fm outerF hcurF
    refine ⟨?_, fun fm2 c h => ?_, fun fm2 c h => ?_⟩
    · simp [Framework.TransactionManager.beginTransaction, hcurF]
    · simp [Framework.TransactionManager.beginTransaction,
            Framework.TransactionManager.commit, hcurF] at h
      rw [← h.1]
    · simp [Framework.TransactionManager.beginTransaction,
            Framework.TransactionManager.rollback, hcurF] at h
      rw [← h.1]

/-- Claim C5 (amended, witness): the peer-map statement evaluated on the fresh
manager — after begin, begin, and the inner commit (whose concrete result
state is written out), the outer context id 0 is still PENDING in the active
map. -/
theorem c5_amended_witness :
    MgrWF freshManager ∧
    (findRecord ((freshManager.beginTransaction emptyOptions).1.beginTransaction
        emptyOptions).1 (freshManager.beginTransaction emptyOptions).2.id).map
      (fun rc => rc.status) = some TxStatus.pending ∧
    ((freshManager.beginTransaction emptyOptions).2.id ∈
      (⟨[0], [(0, ⟨TxStatus.pending, 0, none, mergeOptions emptyOptions⟩),
         (1, ⟨TxStatus.committed, 1, some 2, mergeOptions emptyOptions⟩)], 2, 3⟩ :
        TransactionManager).activeIds ∧
     (findRecord (⟨[0], [(0, ⟨TxStatus.pending, 0, none, mergeOptions emptyOptions⟩),
         (1, ⟨TxStatus.committed, 1, some 2, mergeOptions emptyOptions⟩)], 2, 3⟩ :
        TransactionManager) (freshManager.beginTransaction emptyOptions).2.id).map
      (fun rc => rc.status) = some TxStatus.pending) :=
  ⟨by decide,
   (c5_amended freshManager emptyOptions emptyOptions (by decide)).2.1,
   (c5_amended freshManager emptyOptions emptyOptions (by decide)).2.2.2.1
     ⟨[0], [(0, ⟨TxStatus.pending, 0, none, mergeOptions emptyOptions⟩),
       (1, ⟨TxStatus.committed, 1, some 2, mergeOptions emptyOptions⟩)], 2, 3⟩
     (by decide)⟩

/-- Claim C6 (counterexample): after `complete()` the subject is terminated,
but a further `subscribe` call still appends the new observer to the list, so
`getObserverCount()` returns 1, not 0. -/
theorem c6_counterexample :
    let s1 := ((freshSubject Nat).complete).1
    let s2 := (s1.subscribe 7).1
    s1.isClosed = true ∧ s2.getObserverCount = 1 ∧ s2.getObserverCount ≠ 0 := by
  decide

/-- Claim C6 (amended): after `error()` or `complete()` the terminated state is
permanent and `next` is inert (no state change, no observer invocation), and
the observer list is cleared at termination so the count is 0 — but a
`subscribe` call made after termination still appends its observer, so the
count then reflects those late subscribers rather than staying 0. -/
theorem c6_amended {T : Type} (s : SafeFlowSubject T) :
    (s.isClosed = true →
      (∀ v, s.next v = (s, [])) ∧
      s.error = (s, []) ∧
      s.complete = (s, []) ∧
      (∀ obs, (s.subscribe obs).1.observers = s.observers ++ [obs] ∧
              (s.subscribe obs).1.isClosed = true)) ∧
    (s.isClosed = false →
      (s.error).1.observers = [] ∧ (s.error).1.isClosed = true ∧
      (s.complete).1.observers = [] ∧ (s.complete).1.isClosed = true) := by
  constructor
  · intro h
    refine ⟨fun v => ?_, ?_, ?_, fun obs => ⟨?_, ?_⟩⟩ <;>
      simp [SafeFlowSubject.next, SafeFlowSubject.error, SafeFlowSubject.complete,
            SafeFlowSubject.subscribe, h]
  · intro h
    refine ⟨?_, ?_, ?_, ?_⟩ <;>
      simp [SafeFlowSubject.error, SafeFlowSubject.complete, h]

/-- Claim C6 (amended, witness): the amended statement evaluated on a completed
subject: a later `next 5` is inert, and a late subscriber is appended. -/
theorem c6_amended_witness :
    ((freshSubject Nat).complete).1.isClosed = true ∧
    ((freshSubject Nat).complete).1.next 5 = (((freshSubject Nat).complete).1, []) ∧
    ((((freshSubject Nat).complete).1.subscribe 7).1.observers =
      ((freshSubject Nat).complete).1.observers ++ [7]) :=
  ⟨by decide,
   ((c6_amended ((freshSubject Nat).complete).1).1 (by decide)).1 5,
   (((c6_amended ((freshSubject Nat).complete).1).1 (by decide)).2.2.2 7).1⟩

end SafeFlow

namespace SafeFlow

open Reactive

/-- Starting from attempt index 1, a body that fails twice then succeeds is
driven by the retry procedure (with a positive delay and at least two retries
left) to success at the third overall attempt. -/
theorem retry_failTwice_from1 (o : TransactionOptions) (d : Nat)
    (hdelay : o.retryDelay = some d) (h0 : 0 < d) (n : Nat)
    (m2 : TransactionManager) (hwf2 : MgrWF m2) :
    (TransactionManager.retryTransaction failTwiceThenSucceed o (n + 2) m2 1).2 =
      (3, Except.ok 42) := by
  have herr1 : (runAttempt failTwiceThenSucceed o m2 1).2.2 =
      Except.error (RunErr.body 1) := by
    rw [runAttempt_error failTwiceThenSucceed o m2 1 1 rfl]
  rw [retry_error_step failTwiceThenSucceed o m2 1 _ n d herr1 hdelay h0]
  have hm3 : (runAttempt failTwiceThenSucceed o m2 1).1 = (m2.beginTransaction o).1 := by
    rw [runAttempt_error failTwiceThenSucceed o m2 1 1 rfl]
  have hwf3 : MgrWF ((m2.beginTransaction o).1) := wf_begin m2 o hwf2
  have hok : (runAttempt failTwiceThenSucceed o ((m2.beginTransaction o).1) 2).2.2 =
      Except.ok 42 := by
    simp [runAttempt, failTwiceThenSucceed,
          commit_after_begin ((m2.beginTransaction o).1) o hwf3]
  rw [hm3, retry_ok failTwiceThenSucceed o ((m2.beginTransaction o).1) 2 42 hok (n + 1)]

end SafeFlow

namespace SafeFlow

open Reactive

/-- Claim C3 (counterexample): with autoRetry: true and maxRetries: 2 (and no
explicit retryDelay, exactly as in the claim), an always-throwing body is
invoked only 2 times, not N + 1 = 3: the retry chain stops after the first
retry because the raw `options.retryDelay` is undefined, hence falsy. -/
theorem c3_counterexample :
    (freshManager.executeTransaction alwaysFail
      (⟨none, some true, some 2, none, none, none⟩ : TransactionOptions)).2.1 = 2 ∧
    (freshManager.executeTransaction alwaysFail
      (⟨none, some true, some 2, none, none, none⟩ : TransactionOptions)).2.1 ≠ 2 + 1 := by
  decide

/-- Claim C3 (amended): when the options also carry an explicit positive
retryDelay — autoRetry: true, maxRetries: N, retryDelay: d with N ≥ 1 and
d > 0 — an always-failing body is invoked exactly N + 1 times (1 initial
attempt plus N retries) and the error of the last attempt propagates; a body
failing exactly twice then succeeding, with N ≥ 2, yields the success value
after exactly 3 invocations.  (The retry-delay wait itself is a timer and is
outside the synchronous model.) -/
theorem c3_amended (N d : Nat) (hN : 1 ≤ N) (hd : 0 < d) (m : TransactionManager)
    (hwf : MgrWF m) :
    ((m.executeTransaction alwaysFail
        (⟨none, some true, some N, some d, none, none⟩ : TransactionOptions)).2.1 = N + 1 ∧
     (m.executeTransaction alwaysFail
        (⟨none, some true, some N, some d, none, none⟩ : TransactionOptions)).2.2 =
       Except.error (RunErr.body N)) ∧
    (2 ≤ N →
      (m.executeTransaction failTwiceThenSucceed
        (⟨none, some true, some N, some d, none, none⟩ : TransactionOptions)).2.1 = 3 ∧
      (m.executeTransaction failTwiceThenSucceed
        (⟨none, some true, some N, some d, none, none⟩ : TransactionOptions)).2.2 =
        Except.ok 42) := by
  constructor
  · obtain ⟨n, rfl⟩ : ∃ n, N = n + 1 := ⟨N - 1, by omega⟩
    have hrun := runAttempt_error alwaysFail
      (⟨none, some true, some (n + 1), some d, none, none⟩ : TransactionOptions) m 0 0 rfl
    unfold TransactionManager.executeTransaction
    simp only [hrun,
      rollback_after_begin m (⟨none, some true, some (n + 1), some d, none, none⟩ :
        TransactionOptions) hwf]
    rw [if_pos (by refine ⟨?_, ?_⟩ <;> simp)]
    simp only [Option.getD_some]
    refine ⟨?_, ?_⟩
    · rw [(retry_alwaysFail (⟨none, some true, some (n + 1), some d, none, none⟩ :
        TransactionOptions) d rfl hd n _ 1).1]
      omega
    · rw [(retry_alwaysFail (⟨none, some true, some (n + 1), some d, none, none⟩ :
        TransactionOptions) d rfl hd n _ 1).2]
      have e3 : 1 + n = n + 1 := by omega
      rw [e3]
  · intro h2N
    obtain ⟨n, rfl⟩ : ∃ n, N = n + 2 := ⟨N - 2, by omega⟩
    have hrun := runAttempt_error failTwiceThenSucceed
      (⟨none, some true, some (n + 2), some d, none, none⟩ : TransactionOptions) m 0 0 rfl
    unfold TransactionManager.executeTransaction
    simp only [hrun,
      rollback_after_begin m (⟨none, some true, some (n + 2), some d, none, none⟩ :
        TransactionOptions) hwf]
    rw [if_pos (by refine ⟨?_, ?_⟩ <;> simp)]
    simp only [Option.getD_some]
    have hwf2 := wf_terminal m
      ⟨TxStatus.rolledBack, m.now, some (m.now + 1),
        mergeOptions (⟨none, some true, some (n + 2), some d, none, none⟩ :
          TransactionOptions)⟩ (m.now + 2) hwf
    have hmain := retry_failTwice_from1
      (⟨none, some true, some (n + 2), some d, none, none⟩ : TransactionOptions)
      d rfl hd n _ hwf2
    exact ⟨by rw [hmain], by rw [hmain]⟩

/-- Claim C3 (amended, witness): the amended statement evaluated at N = 2,
d = 5, on the fresh manager. -/
theorem c3_amended_witness :
    (1 ≤ 2 ∧ 0 < 5 ∧ MgrWF freshManager) ∧
    (((freshManager.executeTransaction alwaysFail
        (⟨none, some true, some 2, some 5, none, none⟩ : TransactionOptions)).2.1 = 2 + 1 ∧
      (freshManager.executeTransaction alwaysFail
        (⟨none, some true, some 2, some 5, none, none⟩ : TransactionOptions)).2.2 =
        Except.error (RunErr.body 2)) ∧
     (2 ≤ 2 →
      (freshManager.executeTransaction failTwiceThenSucceed
        (⟨none, some true, some 2, some 5, none, none⟩ : TransactionOptions)).2.1 = 3 ∧
      (freshManager.executeTransaction failTwiceThenSucceed
        (⟨none, some true, some 2, some 5, none, none⟩ : TransactionOptions)).2.2 =
        Except.ok 42)) :=
  ⟨⟨by decide, by decide, by decide⟩,
   c3_amended 2 5 (by decide) (by decide) freshManager (by decide)⟩

/-- Claim C7 (confirmed): a non-terminated subject holding a last value
synchronously replays exactly that value to a newly subscribing observer
within the subscribe call; equivalently, a store subscriber arriving after at
least one setState call is immediately sent the current state. -/
theorem c7_subscribe_replays_latest {T : Type} (s : SafeFlowSubject T) (obs : Nat)
    (v : T) (hopen : s.isClosed = false) (hv : s.hasValue = true)
    (hlast : s.lastValue = some v) :
    s.subscribe obs =
      ({ s with observers := s.observers ++ [obs] }, [(obs, SubjEvent.next v)]) ∧
    (∀ (init : StObj) (ps : List StObj), ps ≠ [] → ∀ ob : Nat,
      ((applySetStates (mkStore init) ps).subscribe ob).2 =
        [(ob, SubjEvent.next (applySetStates (mkStore init) ps).state)]) := by
  constructor
  · simp [SafeFlowSubject.subscribe, hopen, hv, hlast]
  · intro init ps hne ob
    have hcl0 : (mkStore init).subject.isClosed = false := rfl
    rcases applySetStates_inv ps (mkStore init) hcl0 with ⟨_, _, hcl⟩
    rcases applySetStates_last ps (mkStore init) hcl0 hne with ⟨hhv, hlv⟩
    simp [SafeFlowStore.subscribe, SafeFlowSubject.subscribe, hcl, hhv, hlv]

/-- Claim C7 (witness): the replay statement evaluated on a subject that has
seen `next 5`, and on a store after one setState call. -/
theorem c7_witness :
    (((freshSubject Nat).next 5).1.isClosed = false ∧
     ((freshSubject Nat).next 5).1.hasValue = true ∧
     ((freshSubject Nat).next 5).1.lastValue = some 5) ∧
    ((freshSubject Nat).next 5).1.subscribe 2 =
      ({ ((freshSubject Nat).next 5).1 with
          observers := ((freshSubject Nat).next 5).1.observers ++ [2] },
       [(2, SubjEvent.next 5)]) ∧
    ((applySetStates (mkStore [("count", (0 : Int))]) [[("count", 1)]]).subscribe 4).2 =
      [(4, SubjEvent.next
        (applySetStates (mkStore [("count", (0 : Int))]) [[("count", 1)]]).state)] :=
  ⟨⟨by decide, by decide, by decide⟩,
   (c7_subscribe_replays_latest (((freshSubject Nat).next 5).1) 2 5
      (by decide) (by decide) (by decide)).1,
   (c7_subscribe_replays_latest (((freshSubject Nat).next 5).1) 2 5
      (by decide) (by decide) (by decide)).2
     [("count", (0 : Int))] [[("count", 1)]] (by decide) 4⟩

/-- Claim C8 (confirmed): for a store transaction begun by the store (so the
context carries the snapshot), any sequence of setState calls made while the
context is PENDING is discarded by rollbackTransaction: the state is restored
to exactly the value held at beginTransaction, the manager rollback succeeds,
and the restored value is then published to every observer. -/
theorem c8_rollback_restores_snapshot (s0 : SafeFlowStore) (o : TransactionOptions)
    (ps : List StObj) (hwf : MgrWF s0.transactionManager)
    (hopen : s0.subject.isClosed = false) :
    ((applySetStates (s0.beginTransaction o).1 ps).rollbackTransaction
        (s0.beginTransaction o).2).1.getState = s0.state ∧
    ((applySetStates (s0.beginTransaction o).1 ps).rollbackTransaction
        (s0.beginTransaction o).2).2.2 = none ∧
    ((applySetStates (s0.beginTransaction o).1 ps).rollbackTransaction
        (s0.beginTransaction o).2).2.1 =
      s0.subject.observers.map (fun ob => (ob, SubjEvent.next s0.state)) := by
  have hcl1 : (s0.beginTransaction o).1.subject.isClosed = false := hopen
  rcases applySetStates_inv ps (s0.beginTransaction o).1 hcl1 with ⟨hmgr, hobs, hcl⟩
  simp only [SafeFlowStore.beginTransaction] at hmgr hobs hcl ⊢
  simp [SafeFlowStore.rollbackTransaction, SafeFlowStore.getState, SafeFlowSubject.next,
        rollback_after_begin s0.transactionManager o hwf, hmgr, hobs, hcl]

/-- Claim C8 (witness): the rollback-restores-snapshot statement evaluated on a
concrete store with one observer and one interposed setState. -/
theorem c8_witness :
    let s0 := ((mkStore [("count", (0 : Int))]).subscribe 0).1
    (MgrWF s0.transactionManager ∧ s0.subject.isClosed = false) ∧
    (((applySetStates (s0.beginTransaction emptyOptions).1
          [[("count", 99)]]).rollbackTransaction
        (s0.beginTransaction emptyOptions).2).1.getState = s0.state ∧
     ((applySetStates (s0.beginTransaction emptyOptions).1
          [[("count", 99)]]).rollbackTransaction
        (s0.beginTransaction emptyOptions).2).2.2 = none ∧
     ((applySetStates (s0.beginTransaction emptyOptions).1
          [[("count", 99)]]).rollbackTransaction
        (s0.beginTransaction emptyOptions).2).2.1 =
       s0.subject.observers.map (fun ob => (ob, SubjEvent.next s0.state))) :=
  ⟨⟨by decide, by decide⟩,
   c8_rollback_restores_snapshot (((mkStore [("count", (0 : Int))]).subscribe 0).1)
     emptyOptions [[("count", 99)]] (by decide) (by decide)⟩

/-- Claim C10 (confirmed): rolling the store back with a PENDING context whose
attached data has no snapshot (a context obtained from the manager's own
beginTransaction) leaves the state value unchanged, still marks the context
ROLLED_BACK and removes it from the active set, and still publishes the
current (unrestored) value to observers. -/
theorem c10_rollback_without_snapshot (s0 : SafeFlowStore) (o : TransactionOptions)
    (hwf : MgrWF s0.transactionManager) (hopen : s0.subject.isClosed = false) :
    (({ s0 with transactionManager := (s0.transactionManager.beginTransaction o).1 } :
        SafeFlowStore).rollbackTransaction
      (s0.transactionManager.beginTransaction o).2).1.state = s0.state ∧
    (({ s0 with transactionManager := (s0.transactionManager.beginTransaction o).1 } :
        SafeFlowStore).rollbackTransaction
      (s0.transactionManager.beginTransaction o).2).2.2 = none ∧
    (findRecord (({ s0 with
          transactionManager := (s0.transactionManager.beginTransaction o).1 } :
        SafeFlowStore).rollbackTransaction
        (s0.transactionManager.beginTransaction o).2).1.transactionManager
      (s0.transactionManager.beginTransaction o).2.id).map (fun rc => rc.status) =
      some TxStatus.rolledBack ∧
    (s0.transactionManager.beginTransaction o).2.id ∉
      (({ s0 with transactionManager := (s0.transactionManager.beginTransaction o).1 } :
          SafeFlowStore).rollbackTransaction
        (s0.transactionManager.beginTransaction o).2).1.transactionManager.activeIds ∧
    (({ s0 with transactionManager := (s0.transactionManager.beginTransaction o).1 } :
        SafeFlowStore).rollbackTransaction
      (s0.transactionManager.beginTransaction o).2).2.1 =
      s0.subject.observers.map (fun ob => (ob, SubjEvent.next s0.state)) := by
  have hks : ∀ p ∈ s0.transactionManager.records, p.1 ≠ s0.transactionManager.nextId :=
    fun p hp => Nat.ne_of_lt (hwf.1 p hp)
  have hna : s0.transactionManager.nextId ∉ s0.transactionManager.activeIds :=
    fun hmem => absurd (hwf.2 _ hmem) (lt_irrefl _)
  have hsnap : (s0.transactionManager.beginTransaction o).2.snapshot = none := rfl
  have hid : (s0.transactionManager.beginTransaction o).2.id =
      s0.transactionManager.nextId := rfl
  simp [SafeFlowStore.rollbackTransaction, SafeFlowStore.getState, SafeFlowSubject.next,
        hsnap, hid, rollback_after_begin_nextId s0.transactionManager o hwf, hopen,
        findRecord,
        find_append_fresh s0.transactionManager.records s0.transactionManager.nextId
          ⟨TxStatus.rolledBack, s0.transactionManager.now,
            some (s0.transactionManager.now + 1), mergeOptions o⟩ hks,
        hna]

/-- Claim C10 (witness): the no-snapshot rollback statement evaluated on a
concrete store with one observer. -/
theorem c10_witness :
    let s0 := ((mkStore [("count", (5 : Int))]).subscribe 3).1
    (MgrWF s0.transactionManager ∧ s0.subject.isClosed = false) ∧
    ((({ s0 with
          transactionManager := (s0.transactionManager.beginTransaction emptyOptions).1 } :
        SafeFlowStore).rollbackTransaction
      (s0.transactionManager.beginTransaction emptyOptions).2).1.state = s0.state ∧
     (({ s0 with
          transactionManager := (s0.transactionManager.beginTransaction emptyOptions).1 } :
        SafeFlowStore).rollbackTransaction
      (s0.transactionManager.beginTransaction emptyOptions).2).2.2 = none ∧
     (findRecord (({ s0 with
          transactionManager := (s0.transactionManager.beginTransaction emptyOptions).1 } :
        SafeFlowStore).rollbackTransaction
        (s0.transactionManager.beginTransaction emptyOptions).2).1.transactionManager
      (s0.transactionManager.beginTransaction emptyOptions).2.id).map
        (fun rc => rc.status) = some TxStatus.rolledBack ∧
     (s0.transactionManager.beginTransaction emptyOptions).2.id ∉
      (({ s0 with
          transactionManager := (s0.transactionManager.beginTransaction emptyOptions).1 } :
          SafeFlowStore).rollbackTransaction
        (s0.transactionManager.beginTransaction emptyOptions).2).1.transactionManager.activeIds ∧
     (({ s0 with
          transactionManager := (s0.transactionManager.beginTransaction emptyOptions).1 } :
        SafeFlowStore).rollbackTransaction
      (s0.transactionManager.beginTransaction emptyOptions).2).2.1 =
      s0.subject.observers.map (fun ob => (ob, SubjEvent.next s0.state))) :=
  ⟨⟨by decide, by decide⟩,
   c10_rollback_without_snapshot (((mkStore [("count", (5 : Int))]).subscribe 3).1)
     emptyOptions (by decide) (by decide)⟩

end SafeFlow

namespace SafeFlow

open HeapModel

/-- Every member of a list of naturals is bounded by its foldr-max. -/
theorem mem_le_foldr_max (l : List Nat) (a : Nat) (h : a ∈ l) :
    a ≤ l.foldr Nat.max 0 := by
  induction l with
  | nil => cases h
  | cons b l ih =>
    simp only [List.foldr_cons]
    rcases List.mem_cons.mp h with rfl | h1
    · exact Nat.le_max_left _ _
    · exact le_trans (ih h1) (Nat.le_max_right _ _)

/-- The fresh address is not allocated. -/
theorem freshAddr_not_mem (h : Heap) : freshAddr h ∉ h.map (fun p => p.1) := by
  intro hmem
  have h1 := mem_le_foldr_max (h.map (fun p => p.1)) (freshAddr h) hmem
  unfold freshAddr at h1
  omega

/-- An association search for an allocated key ignores a freshly appended
entry. -/
theorem find_key_append_of_mem {β : Type} (l : List (Nat × β)) (x : Nat × β) (b : Nat)
    (hb : b ∈ l.map (fun p => p.1)) :
    (l ++ [x]).find? (fun p => p.1 == b) = l.find? (fun p => p.1 == b) := by
  induction l with
  | nil => cases hb
  | cons p l ih =>
    by_cases hpb : (p.1 == b) = true
    · simp [List.find?_cons, hpb]
    · have hb' : b ∈ l.map (fun q => q.1) := by
        rcases List.mem_map.mp hb with ⟨q, hq, hqb⟩
        rcases List.mem_cons.mp hq with rfl | hq1
        · exact absurd (by simp [hqb]) hpb
        · exact List.mem_map.mpr ⟨q, hq1, hqb⟩
      simp [List.find?_cons, hpb, ih hb']

/-- Object lookup at an allocated address ignores a freshly appended object. -/
theorem lookupObj_append_fresh (h : Heap) (c : Nat) (o : Obj) (b : Nat)
    (hb : b ∈ h.map (fun p => p.1)) :
    lookupObj (h ++ [(c, o)]) b = lookupObj h b := by
  unfold lookupObj
  rw [find_key_append_of_mem h (c, o) b hb]

/-- A field assignment on one address does not change lookups of any other
address. -/
theorem setHeapField_lookup_other (h : Heap) (c : Nat) (k : String) (v : JVal)
    (b : Nat) (hbc : b ≠ c) :
    lookupObj (setHeapField h c k v) b = lookupObj h b := by
  unfold setHeapField lookupObj
  induction h with
  | nil => rfl
  | cons p h ih =>
    simp only [List.map_cons, List.find?_cons]
    by_cases hpc : (p.1 == c) = true
    · have hp1 : p.1 = c := by simpa using hpc
      have h1 : (c == b) = false := by
        simp only [beq_eq_false_iff_ne, ne_eq]
        exact fun e => hbc e.symm
      have h2 : (p.1 == b) = false := by
        rw [hp1]; exact h1
      simp only [hpc, if_true, h1, h2]
      simpa using ih
    · simp only [hpc]
      rw [if_neg (by simp)]
      by_cases hpb : (p.1 == b) = true
      · simp [hpb]
      · simp only [hpb]
        simpa using ih

/-- A successful association search yields a member with the searched key. -/
theorem mem_of_assoc_find {κ β : Type} [BEq κ] [LawfulBEq κ] (l : List (κ × β))
    (k : κ) (p : κ × β) (h : l.find? (fun q => q.1 == k) = some p) :
    p ∈ l ∧ p.1 = k := by
  constructor
  · exact List.mem_of_find?_eq_some h
  · have := List.find?_some h
    simpa using this

/-- A successful object lookup is heap membership. -/
theorem lookupObj_mem (h : Heap) (a : Nat) (o : Obj) (hlk : lookupObj h a = some o) :
    (a, o) ∈ h := by
  unfold lookupObj at hlk
  cases hfind : h.find? (fun p => p.1 == a) with
  | none => rw [hfind] at hlk; cases hlk
  | some p =>
    rw [hfind] at hlk
    rcases mem_of_assoc_find h a p hfind with ⟨hmem, hkey⟩
    have ho : p.2 = o := by simpa using hlk
    have he : p = (a, o) := by
      rcases p with ⟨p1, p2⟩
      simp only at hkey ho
      rw [hkey, ho]
    rw [← he]; exact hmem

/-- A successful field read is object membership. -/
theorem getField_mem (o : Obj) (k : String) (v : JVal) (hg : getField o k = some v) :
    (k, v) ∈ o := by
  unfold getField at hg
  cases hfind : o.find? (fun q => q.1 == k) with
  | none => rw [hfind] at hg; cases hg
  | some p =>
    rw [hfind] at hg
    rcases mem_of_assoc_find o k p hfind with ⟨hmem, hkey⟩
    have hv : p.2 = v := by simpa using hg
    have he : p = (k, v) := by
      rcases p with ⟨p1, p2⟩
      simp only at hkey hv
      rw [hkey, hv]
    rw [← he]; exact hmem

/-- Reading a path from an allocated address only consults allocated objects,
so two heaps agreeing on every allocated address read identically. -/
theorem readPath_congr (h h2 : Heap) (hwf : HeapWF h)
    (hagree : ∀ b ∈ h.map (fun p => p.1), lookupObj h2 b = lookupObj h b) :
    ∀ (path : List String) (a : Nat), a ∈ h.map (fun p => p.1) →
      readPath h2 a path = readPath h a path := by
  intro path
  induction path with
  | nil => intro a _; rfl
  | cons k ks ih =>
    intro a ha
    unfold readPath
    rw [hagree a ha]
    cases hlk : lookupObj h a with
    | none => rfl
    | some o =>
      have hmem := lookupObj_mem h a o hlk
      cases hgf : getField o k with
      | none => simp only [hgf]
      | some v =>
        cases ks with
        | nil => simp only [hgf]
        | cons k2 ks2 =>
          cases v with
          | prim n => simp only [hgf]
          | ref b =>
            have hfield := getField_mem o k (JVal.ref b) hgf
            have hb : b ∈ h.map (fun p => p.1) := by
              have hr := hwf (a, o) hmem (k, JVal.ref b) hfield
              simpa [refOk] using hr
            simp only [hgf]
            exact ih b hb

end SafeFlow

namespace SafeFlow

open HeapModel

/-- Claim C9 (counterexample): with state object at address 0 holding a nested
object at address 1, `getState` returns a shallow copy at fresh address 2 that
shares the nested reference; assigning count = 2 through that shared nested
object changes the value a later read of the STORE state observes from 1
to 2 — the defensive copy does not hold at depth. -/
theorem c9_counterexample :
    let h0 : Heap := [(0, [("nested", JVal.ref 1)]), (1, [("count", JVal.prim 1)])]
    getField ((lookupObj (getStateHeap h0 0).1 (getStateHeap h0 0).2).getD [])
        "nested" = some (JVal.ref 1) ∧
    readPath h0 0 ["nested", "count"] = some (JVal.prim 1) ∧
    readPath (setHeapField (getStateHeap h0 0).1 1 "count" (JVal.prim 2)) 0
        ["nested", "count"] = some (JVal.prim 2) := by
  decide

/-- Claim C9 (amended): `getState` returns a SHALLOW defensive copy: an
assignment to a field of the returned top-level object itself never changes
what the store observes through its own state reference, at any path — but the
copy shares nested objects, so mutations made at depth through it do reach the
store (see the counterexample). -/
theorem c9_amended (h : Heap) (a : Nat) (hwf : HeapWF h)
    (ha : a ∈ h.map (fun p => p.1)) (k : String) (v : JVal) (path : List String) :
    readPath (setHeapField (getStateHeap h a).1 (getStateHeap h a).2 k v) a path =
      readPath h a path := by
  have hc : (getStateHeap h a).2 = freshAddr h := by
    unfold getStateHeap
    cases lookupObj h a <;> rfl
  obtain ⟨o0, h1eq⟩ : ∃ o0, (getStateHeap h a).1 = h ++ [(freshAddr h, o0)] := by
    unfold getStateHeap
    cases lookupObj h a with
    | none => exact ⟨[], rfl⟩
    | some o => exact ⟨o, rfl⟩
  have hcm := freshAddr_not_mem h
  rw [hc, h1eq]
  refine readPath_congr h _ hwf ?_ path a ha
  intro b hb
  have hbc : b ≠ freshAddr h := fun e => hcm (e ▸ hb)
  rw [setHeapField_lookup_other _ _ k v b hbc]
  exact lookupObj_append_fresh h _ o0 b hb

/-- Claim C9 (amended, witness): the shallow-copy statement evaluated on the
two-object heap: a top-level assignment on the copy leaves the path the store
reads unchanged. -/
theorem c9_amended_witness :
    (HeapWF [(0, [("nested", JVal.ref 1)]), (1, [("count", JVal.prim 1)])] ∧
     0 ∈ ([(0, [("nested", JVal.ref 1)]), (1, [("count", JVal.prim 1)])] : Heap).map
        (fun p => p.1)) ∧
    readPath
      (setHeapField
        (getStateHeap [(0, [("nested", JVal.ref 1)]), (1, [("count", JVal.prim 1)])] 0).1
        (getStateHeap [(0, [("nested", JVal.ref 1)]), (1, [("count", JVal.prim 1)])] 0).2
        "nested" (JVal.prim 7)) 0 ["nested", "count"] =
      readPath [(0, [("nested", JVal.ref 1)]), (1, [("count", JVal.prim 1)])] 0
        ["nested", "count"] :=
  ⟨⟨by decide, by decide⟩,
   c9_amended [(0, [("nested", JVal.ref 1)]), (1, [("count", JVal.prim 1)])] 0
     (by decide) (by decide) "nested" (JVal.prim 7) ["nested", "count"]⟩

end SafeFlow
